import Mathlib

set_option maxHeartbeats 1000000

/-!
Verification development for the api-meta-store metadata API.

This file gives a shallow embedding, in Lean, of the query-translation and
constraint-enforcement layer of the service (src/api/utils.py,
src/api/records.py, src/api/files.py, src/api/config.py, src/api/databases.py)
and proves properties of that embedding.  Python dictionaries are modelled as
association lists over an inductive value type, the Mongo-like backend handler
is modelled as an explicit list of document rows, exceptions are modelled with
an explicit error type threaded through `Except`, and the HTTP route handlers'
`try/except` chains are modelled as total functions from raised errors to
status codes.
-/

/-- Values stored in metadata documents.  The claims under study only need
equality tests on values (the reconciler compares `data[key] != info[key]`),
so strings, integers, booleans and null suffice. -/
inductive Value where
  | str (s : String)
  | intv (n : Int)
  | boolv (b : Bool)
  | null
deriving DecidableEq, Repr

/-- A metadata document (a Python dict), as an association list. -/
abbrev Doc := List (String × Value)

/-- Dictionary lookup `d[k]` returning `none` when the key is absent
(`k in d.keys()` is `docGet? d k ≠ none`). -/
def docGet? (d : Doc) (k : String) : Option Value :=
  (d.find? (fun p => p.1 == k)).map (fun p => p.2)

/-- Membership test `k in d.keys()`. -/
def docHasKey (d : Doc) (k : String) : Bool :=
  d.any (fun p => p.1 == k)

/-- Assignment `d[k] = v`: replace in place when the key exists, else append. -/
def docSet (d : Doc) (k : String) (v : Value) : Doc :=
  if docHasKey d k then d.map (fun p => if p.1 == k then (k, v) else p)
  else d ++ [(k, v)]

/-- Python `d.update(patch)`: shallow merge, patch values override. -/
def docUpdate (d : Doc) (patch : Doc) : Doc :=
  patch.foldl (fun acc kv => docSet acc kv.1 kv.2) d

/-! ## String sanitizer (src/api/utils.py, escape_string) -/

/-- The single-quote character, used by the search parser for quoting. -/
def sqc : Char := Char.ofNat 39

/-- The single-quote character as a one-character string. -/
def sqStr : String := String.singleton sqc

/-- Non-alphanumeric characters of the regex class used for the default and
the filtering kind: `[^a-zA-Z0-9:;.,_=<>" /~!@#$%^&()+-]` (re.sub deletes the
complement, i.e. keeps exactly this class). -/
def defaultClassChars : List Char := ":;.,_=<>\" /~!@#$%^&()+-".data

/-- Non-alphanumeric characters kept for kind `path`:
`[^a-zA-Z0-9:;.,_=<>/~!@#$%^&()+-]`. -/
def pathClassChars : List Char := ":;.,_=<>/~!@#$%^&()+-".data

/-- Non-alphanumeric characters kept for kinds `id` and `uuid`:
`[^a-zA-Z0-9_-]`. -/
def idClassChars : List Char := "_-".data

/-- Non-alphanumeric characters kept for kind `key`:
`[^a-zA-Z0-9_=<>/()@-]`. -/
def keyClassChars : List Char := "_=<>/()@-".data

/-- The regex range `a-zA-Z0-9` (ASCII alphanumerics). -/
def alnumAscii (c : Char) : Bool := c.isLower || c.isUpper || c.isDigit

/-- Membership in a character class `[a-zA-Z0-9<extra>]`. -/
def matchesClass (extra : List Char) (c : Char) : Bool :=
  alnumAscii c || extra.contains c

/-- Model of `re.sub('[^X]', '', s)`: keep exactly the characters in class X. -/
def reSubKeep (keep : Char → Bool) (s : String) : String :=
  String.mk (s.data.filter keep)

/-- Embedding of `escape_string(data, kind)` from src/api/utils.py:
a kind-dispatched whitelist filter; `None` input passes through, an
unrecognised kind passes the string through unchanged. -/
def escape_string (data : Option String) (kind : Option String) : Option String :=
  match data with
  | none => none
  | some s =>
    some (
      if kind == none then reSubKeep (matchesClass defaultClassChars) s
      else if kind == some "filtering" then reSubKeep (matchesClass defaultClassChars) s
      else if kind == some "id" then reSubKeep (matchesClass idClassChars) s
      else if kind == some "key" then reSubKeep (matchesClass keyClassChars) s
      else if kind == some "path" then reSubKeep (matchesClass pathClassChars) s
      else if kind == some "uuid" then reSubKeep (matchesClass idClassChars) s
      else s)

/-! ## Python string primitives used by the search parser -/

/-- Worker for `str.split(sep)` with a non-empty separator: scan left to
right, cutting at each non-overlapping occurrence of `sep`.  The fuel
argument (always instantiated with more than the input length) makes the
recursion structural so that proofs can evaluate it by kernel reduction. -/
def splitGo (sep : List Char) : Nat → List Char → List Char → List (List Char)
  | 0, acc, rest => [acc.reverse ++ rest]
  | _ + 1, acc, [] => [acc.reverse]
  | fuel + 1, acc, c :: cs =>
    if List.isPrefixOf sep (c :: cs) then
      acc.reverse :: splitGo sep fuel [] (List.drop sep.length (c :: cs))
    else
      splitGo sep fuel (c :: acc) cs

/-- Python `s.split(sep)` for a non-empty separator `sep`. -/
def pySplit (s sep : String) : List String :=
  (splitGo sep.data (s.data.length + 1) [] s.data).map String.mk

/-- Worker for substring containment. -/
def subLi : List Char → List Char → Bool
  | _, [] => true
  | [], _ :: _ => false
  | c :: cs, sub => List.isPrefixOf sub (c :: cs) || subLi cs sub

/-- Python `sub in s` on strings. -/
def hasSubstr (s sub : String) : Bool := subLi s.data sub.data

/-- Python `s.replace('\\', '')`: delete every backslash. -/
def removeBackslashes (s : String) : String :=
  String.mk (s.data.filter (fun c => c != '\\'))

/-- Python `s.isdecimal()`, restricted to ASCII decimal digits (the search
values the service manipulates are ASCII; non-ASCII decimals would only
change the quoting of exotic inputs, not any property studied here). -/
def isDecimalStr (s : String) : Bool := !s.data.isEmpty && s.data.all Char.isDigit

/-- Single-quote a string, as the parser's `f"'{x}'"`. -/
def quoteS (s : String) : String := sqStr ++ s ++ sqStr

/-! ## Search-keyword parser (src/api/utils.py, parse_search_keyword) -/

/-- The `key` local of `_parse_search_keyword`:
`key = keyword.split(expression)[0]; key = f"'{key}'"`. -/
def searchKey (keyword expression : String) : String :=
  quoteS ((pySplit keyword expression).headD "")

/-- The `value` local of `_parse_search_keyword`:
`value = ''.join(keyword.split(expression)[1:]); value = value.replace('\\', '')`. -/
def searchValue (keyword expression : String) : String :=
  removeBackslashes (String.join ((pySplit keyword expression).drop 1))

/-- Embedding of `_parse_search_keyword(keyword, expression, replace_expression)`
from src/api/utils.py.  Note that the emptiness guard tests the already
quoted `key`, exactly as the source does. -/
def _parse_search_keyword (keyword expression : String)
    (replace_expression : Option String) : String :=
  let key := searchKey keyword expression
  let value := searchValue keyword expression
  if key = "" ∨ value = "" then ""
  else
    let value := if isDecimalStr value then value else quoteS value
    if replace_expression == some "regex" then
      key ++ " == regex(" ++ value ++ ")"
    else
      match replace_expression with
      | some r =>
        if r == "" then key ++ " " ++ expression ++ " " ++ value
        else key ++ " " ++ r ++ " " ++ value
      | none => key ++ " " ++ expression ++ " " ++ value

/-- The fallback clause for a bare keyword: OR of `column:.*key.*` fuzzy
matches over the candidate columns. -/
def bareKeywordClause (columns : List String) (key : String) : String :=
  "(" ++ String.intercalate " or "
    (columns.map (fun column =>
      _parse_search_keyword (column ++ ":.*" ++ key ++ ".*") ":" (some "regex")))
    ++ ")"

/-- Operator dispatch for one token of the search keyword, in the source's
precedence order. -/
def tokenClause (columns : List String) (key : String) : String :=
  if hasSubstr key ":" then _parse_search_keyword key ":" (some "regex")
  else if hasSubstr key ">=" then _parse_search_keyword key ">=" none
  else if hasSubstr key "<=" then _parse_search_keyword key "<=" none
  else if hasSubstr key "!=" then _parse_search_keyword key "!=" none
  else if hasSubstr key "=" then _parse_search_keyword key "=" none
  else if hasSubstr key ">" then _parse_search_keyword key ">" none
  else if hasSubstr key "<" then _parse_search_keyword key "<" none
  else bareKeywordClause columns key

/-- Embedding of `parse_search_keyword(search_keyword, columns)` from
src/api/utils.py: `None` keyword means no filter; otherwise the keyword is
split on single spaces and the per-token clauses are joined with `' and '`
(the `enumerate` loop of the source). -/
def parse_search_keyword (search_keyword : Option String)
    (columns : Option (List String)) : Option String :=
  let columns := match columns with
    | none => ["tags"]
    | some cs => cs
  match search_keyword with
  | none => none
  | some kw =>
    some (String.intercalate " and " ((pySplit kw " ").map (tokenClause columns)))

/-! ## Errors and route-level status mapping -/

/-- Typed failures of the repository layer (src/api/exceptions.py plus the
Python built-ins the routes catch).  Each carries the raised message. -/
inductive ApiError where
  | objectDoesNotExist (msg : String)
  | invalidData (msg : String)
  | invalidObject (msg : String)
  | assertionError (msg : String)
  | keyError (msg : String)
deriving DecidableEq, Repr

/-- Status mapping of the `update_record` route's except chain
(src/api/records.py): AssertionError/InvalidData/ValueError give 400,
ObjectDoesNotExist 404, InvalidObject 500; anything else is unhandled
(`none`). -/
def update_record_status : ApiError → Option Nat
  | .assertionError _ => some 400
  | .invalidData _ => some 400
  | .objectDoesNotExist _ => some 404
  | .invalidObject _ => some 500
  | .keyError _ => none

/-- Status mapping of the `update_config` route's except chain
(src/api/config.py): AssertionError/InvalidData give 400, ObjectDoesNotExist
404, InvalidObject 500; a KeyError is unhandled. -/
def update_config_status : ApiError → Option Nat
  | .assertionError _ => some 400
  | .invalidData _ => some 400
  | .objectDoesNotExist _ => some 404
  | .invalidObject _ => some 500
  | .keyError _ => none

/-- HTTP status of a finished repository call: 200 on success, else the
route's mapping of the raised error. -/
def resultStatus (route : ApiError → Option Nat) :
    Except ApiError (List Doc) → Option Nat
  | .ok _ => some 200
  | .error e => route e

/-- Discriminator: the call failed with `InvalidData`. -/
def isInvalidDataErr {α : Type} : Except ApiError α → Bool
  | .error (.invalidData _) => true
  | _ => false

/-! ## Schema (handler.config) -/

/-- A stored column descriptor of `handler.config['columns']`.  The record
reconciler reads `c['name']` and, when present, `c['aggregation']`; `dtype`
is carried for completeness. -/
structure Column where
  name : String
  dtype : Option String := none
  aggregation : Option String := none
deriving DecidableEq, Repr

/-- The parts of `handler.config` that the update paths read. -/
structure Config where
  columns : List Column
  index_columns : List String
deriving DecidableEq, Repr

/-! ## Group reconciler for records (src/api/records.py, _update_record) -/

/-- Membership of a row in the group of a record: the row was returned by
the read with `pql='record_id == "<rid>"'`. -/
def inRecordGroup (rid : String) (d : Doc) : Bool :=
  decide (docGet? d "record_id" = some (Value.str rid))

/-- The rows of the database matching a record id. -/
def recordRows (db : List Doc) (rid : String) : List Doc :=
  db.filter (inRecordGroup rid)

/-- One key of the patch is in the to-add/to-update set: some row either
lacks the key (`keys_to_add`) or holds a different value (`keys_to_update`). -/
def keyChanged (rows : List Doc) (info : Doc) (k : String) : Bool :=
  rows.any (fun d =>
    match docGet? d k, docGet? info k with
    | none, _ => true
    | some w, some v => decide (w ≠ v)
    | some _, none => false)

/-- The union `{*keys_to_add, *keys_to_update}` of `_update_record`, as the
patch keys that changed against some row. -/
def changedKeys (rows : List Doc) (info : Doc) : List String :=
  (info.map Prod.fst).filter (keyChanged rows info)

/-- Validation of one changed key (`# Check keys` loop of `_update_record`):
index columns are immutable; a key that is no schema column passes; a schema
column without an `aggregation` entry passes; aggregation `'first'` passes;
any other aggregation is rejected. -/
def checkRecordKey (cfg : Config) (k : String) : Except ApiError Unit :=
  if cfg.index_columns.contains k then
    .error (.invalidData ("Key \"" ++ k ++ "\" cannot be updated. Please replace this record."))
  else
    match cfg.columns.find? (fun c => c.name == k) with
    | none => .ok ()
    | some col =>
      match col.aggregation with
      | none => .ok ()
      | some a =>
        if ["first"].contains a then .ok ()
        else .error (.invalidData ("Key \"" ++ k ++ "\" cannot be updated. Consider updating on file-level."))

/-- The key-check loop: first offending key raises, later keys are not
reached. -/
def checkRecordKeys (cfg : Config) : List String → Except ApiError Unit
  | [] => .ok ()
  | k :: ks =>
    match checkRecordKey cfg k with
    | .error e => .error e
    | .ok _ => checkRecordKeys cfg ks

/-- The update loop of `_update_record`/`_update_file`: every row of the
group is dict-updated with the patch and written back with overwrite
strategy; rows outside the group are untouched. -/
def overwriteGroup (grp : Doc → Bool) (db : List Doc) (info : Doc) : List Doc :=
  db.map (fun d => if grp d then docUpdate d info else d)

/-- Embedding of `_update_record(database_id, record_id, info)` from
src/api/records.py, acting on the database state `db` (the record-oriented
handler's rows).  The initial `_get_record` existence check raises
`ObjectDoesNotExist` when the grouped read finds nothing, i.e. when no row
matches; the key checks run before any mutation; only when every changed key
passes are the group's rows updated and saved. -/
def _update_record (cfg : Config) (db : List Doc) (rid : String) (info : Doc) :
    Except ApiError (List Doc) :=
  let rows := recordRows db rid
  if rows.isEmpty then .error (.objectDoesNotExist "No record found")
  else
    match checkRecordKeys cfg (changedKeys rows info) with
    | .error e => .error e
    | .ok _ => .ok (overwriteGroup (inRecordGroup rid) db info)

/-- Database state after the whole PATCH-record request: a raised error
aborts before `handler.save()`, leaving the stored rows unchanged. -/
def applyUpdateRecord (cfg : Config) (db : List Doc) (rid : String) (info : Doc) :
    List Doc :=
  match _update_record cfg db rid info with
  | .ok db2 => db2
  | .error _ => db

/-! ## File update (src/api/files.py, _update_file) -/

/-- Membership of a row in a file group: matched by `pql='_uuid == "<uuid>"'`. -/
def inFileGroup (uuid : String) (d : Doc) : Bool :=
  decide (docGet? d "_uuid" = some (Value.str uuid))

/-- The rows matching a file uuid. -/
def fileRows (db : List Doc) (uuid : String) : List Doc :=
  db.filter (inFileGroup uuid)

/-- The `keys_to_update` set of `_update_file`: only keys present in a row
with a different value count (new keys are not tracked at file level). -/
def fileKeyChanged (rows : List Doc) (info : Doc) (k : String) : Bool :=
  rows.any (fun d =>
    match docGet? d k, docGet? info k with
    | some w, some v => decide (w ≠ v)
    | _, _ => false)

/-- The changed-key set of `_update_file`. -/
def fileChangedKeys (rows : List Doc) (info : Doc) : List String :=
  (info.map Prod.fst).filter (fileKeyChanged rows info)

/-- Embedding of `_update_file(database_id, uuid, info)` from
src/api/files.py.  `_get_file` raises `ObjectDoesNotExist` on zero matches
and `InvalidObject` on several; the only key validation is membership in
`index_columns` (no aggregation rule at file level); then every matching row
is updated and saved. -/
def _update_file (cfg : Config) (db : List Doc) (uuid : String) (info : Doc) :
    Except ApiError (List Doc) :=
  let rows := fileRows db uuid
  if rows.isEmpty then .error (.objectDoesNotExist "No file found")
  else if decide (1 < rows.length) then .error (.invalidObject "Multiple files found")
  else
    match (fileChangedKeys rows info).find? (fun k => cfg.index_columns.contains k) with
    | some k => .error (.invalidData ("Key \"" ++ k ++ "\" cannot be updated. Please delete this entry"))
    | none => .ok (overwriteGroup (inFileGroup uuid) db info)

/-! ## Config update (src/api/config.py, _update_config) -/

/-- A proposed column descriptor in a config patch: a plain dict, so each of
the `name`, `dtype`, `aggregation` keys may be missing. -/
structure PatchColumn where
  nameKey : Option String := none
  dtypeKey : Option String := none
  aggregationKey : Option String := none
deriving DecidableEq, Repr

/-- Reading `c['name']` etc. once validation has passed. -/
def PatchColumn.toColumn (c : PatchColumn) : Column :=
  { name := c.nameKey.getD "", dtype := c.dtypeKey, aggregation := c.aggregationKey }

/-- A config patch body: it may or may not carry the `columns` and
`index_columns` keys (other keys merge without validation and are not
modelled). -/
structure ConfigPatch where
  columns : Option (List PatchColumn) := none
  index_columns : Option (List String) := none
deriving DecidableEq, Repr

/-- Per-column validation loop of `_update_config`: each proposed column
must carry `name`, `dtype` and `aggregation` keys, else the assert fires. -/
def checkColumnEntries : List PatchColumn → Except ApiError Unit
  | [] => .ok ()
  | c :: cs =>
    if c.nameKey.isNone then
      .error (.assertionError "config for columns should have \"name\" key")
    else if c.dtypeKey.isNone then
      .error (.assertionError "config for columns should have \"dtype\" key")
    else if c.aggregationKey.isNone then
      .error (.assertionError "config for columns should have \"aggregation\" key")
    else checkColumnEntries cs

/-- The shallow merge `handler.config.update(config)`: a present `columns`
or `index_columns` key replaces the stored list wholesale. -/
def mergeConfig (stored : Config) (patch : ConfigPatch) : Config :=
  { columns := match patch.columns with
      | some cs => cs.map PatchColumn.toColumn
      | none => stored.columns,
    index_columns := patch.index_columns.getD stored.index_columns }

/-- Embedding of `_update_config(database_id, config)` from
src/api/config.py.  `dbExists` abstracts the initial `_get_database`
existence check.  When the patch has `columns`: building the proposed name
set (`c['name']` comprehension) raises `KeyError` on a nameless column; then
the stored names must all appear among the proposed names (append-only
assert); then each proposed column must carry the three mandatory keys.
When the patch has `index_columns` it must be non-empty.  Only then is the
patch merged and saved. -/
def _update_config (dbExists : Bool) (stored : Config) (patch : ConfigPatch) :
    Except ApiError Config :=
  if dbExists then
    let columnsCheck : Except ApiError Unit :=
      match patch.columns with
      | none => .ok ()
      | some newCols =>
        if newCols.any (fun c => c.nameKey.isNone) then .error (.keyError "name")
        else if (stored.columns.map (fun c => c.name)).all
            (fun n => (newCols.filterMap (fun c => c.nameKey)).contains n) then
          checkColumnEntries newCols
        else .error (.assertionError "You can neither remove columns nor change the names")
    match columnsCheck with
    | .error e => .error e
    | .ok _ =>
      match patch.index_columns with
      | some idx =>
        if idx.isEmpty then
          .error (.assertionError "At least one column must be selected as index_column")
        else .ok (mergeConfig stored patch)
      | none => .ok (mergeConfig stored patch)
  else .error (.objectDoesNotExist "No such database")

/-- Stored config after the whole PATCH-config request: a raised error
aborts before `handler.save()`, leaving the stored config unchanged. -/
def applyUpdateConfig (dbExists : Bool) (stored : Config) (patch : ConfigPatch) :
    Config :=
  match _update_config dbExists stored patch with
  | .ok c => c
  | .error _ => stored

/-- Discriminator for the config result: failed with AssertionError. -/
def isAssertionErr {α : Type} : Except ApiError α → Bool
  | .error (.assertionError _) => true
  | _ => false

/-- HTTP status of a finished config call (200 on success). -/
def configResultStatus : Except ApiError Config → Option Nat
  | .ok _ => some 200
  | .error e => update_config_status e

/-! ## Permission-aware database listing (src/api/databases.py, _list_databases) -/

/-- Python list slice `l[start:stop]` (step 1): negative indices count from
the end, and both bounds clamp to the list. -/
def pySlice {α : Type} (l : List α) (start stop : Int) : List α :=
  let n : Int := l.length
  let s := if start < 0 then max (n + start) 0 else min start n
  let e := if stop < 0 then max (n + stop) 0 else min stop n
  (l.drop s.toNat).take (e - s).toNat

/-- The list-response shape shared by the list endpoints. -/
structure ListResponse where
  data : List Doc
  page : Int
  per_page : Int
  number_of_pages : Int
  sort_key : String
  length : Nat
  total : Nat
deriving Repr

/-- The permitted sublist: `filter_permitted_databases` is the external
permission oracle (spec section 6); it is modelled as a predicate `p` on the
`database_id` value of each fetched row, and
`permitted_database_objects = [all_data[i] for i in permitted_indices]`
is then the in-order filter of `all_data` by that predicate. -/
def permittedObjects (p : Option Value → Bool) (all_data : List Doc) : List Doc :=
  all_data.filter (fun d => p (docGet? d "database_id"))

/-- Embedding of `_list_databases` (src/api/databases.py): all rows matching
the query are read with `limit=None, offset=0` (`all_data` is the full,
already sorted result), the permission oracle filters them, and pagination
(`begin = per_page * (page - 1)`, slice `[begin:begin + per_page]`),
`total`, `number_of_pages = ceil(total / per_page)` and `length` are
computed on the filtered list. -/
def _list_databases (all_data : List Doc) (p : Option Value → Bool)
    (sort_key : String) (per_page page : Int) : ListResponse :=
  let bgn := per_page * (page - 1)
  let permitted := permittedObjects p all_data
  let paged := pySlice permitted bgn (bgn + per_page)
  let total := permitted.length
  { data := paged,
    page := page,
    per_page := per_page,
    number_of_pages := ⌈(total : ℚ) / (per_page : ℚ)⌉,
    sort_key := sort_key,
    length := paged.length,
    total := total }

/-! ## Route-level handling of a bare parser syntax failure -/

/-- Exceptions that can escape the list endpoints' bodies. -/
inductive RaisedExc where
  | objectDoesNotExist
  | permissionError
  | assertionError
  | invalidSortKey
  | reError
  | synError
  | otherExc
deriving DecidableEq, Repr

/-- What a route hands back to the framework. -/
inductive RouteResult where
  | okJson
  | http (status : Nat)
  | noneBody
  | unhandled (e : RaisedExc)
deriving DecidableEq, Repr

/-- The except chain of `list_databases` (src/api/databases.py):
PermissionError gives 403; AssertionError, InvalidSortKey and re.error give
400; a SyntaxError is swallowed by `pass`, so the function falls off the end
and returns a `None` body; everything else propagates. -/
def list_databases_on_exc : RaisedExc → RouteResult
  | .permissionError => .http 403
  | .assertionError => .http 400
  | .invalidSortKey => .http 400
  | .reError => .http 400
  | .synError => .noneBody
  | e => .unhandled e

/-- The except chain of `list_records` (src/api/records.py):
ObjectDoesNotExist gives 404, PermissionError 403, and AssertionError,
InvalidSortKey and re.error 400; there is no SyntaxError clause, so a
SyntaxError propagates out of the route. -/
def list_records_on_exc : RaisedExc → RouteResult
  | .objectDoesNotExist => .http 404
  | .permissionError => .http 403
  | .assertionError => .http 400
  | .invalidSortKey => .http 400
  | .reError => .http 400
  | e => .unhandled e

/-! ## Spec-side sanitizer predicates (for the amended allow-list claim) -/

/-- Modelled from the amended spec wording: the extra characters (beyond
alphanumerics) kept by the default and `filtering` kinds, including the
space and excluding the apostrophe. -/
def specFilterChars : List Char := ":;.,_=<>\" /~!@#$%^&()+-".data

/-- Modelled from the amended spec wording: the extra characters kept by the
`path` kind (the filtering set minus the double quote and the space). -/
def specPathChars : List Char := ":;.,_=<>/~!@#$%^&()+-".data

/-- Modelled from the amended spec wording: the extra characters kept by the
`id` kind (underscore and hyphen only). -/
def specIdChars : List Char := "_-".data

/-- Spec-worded allow-list membership: alphanumeric or one of the listed
extra characters. -/
def specAllowed (extra : List Char) (c : Char) : Bool :=
  c.isAlpha || c.isDigit || extra.contains c

/-! ## Concrete inputs used by the witnesses -/

/-- A schema for the witnesses: `record_id` and `path` are index columns,
`contents` aggregates with `concatenate` (not `first`), `description`
aggregates with `first`. -/
def cfgW : Config :=
  { columns :=
      [ { name := "record_id", dtype := some "str", aggregation := some "first" },
        { name := "path", dtype := some "str", aggregation := some "first" },
        { name := "contents", dtype := some "dict", aggregation := some "concatenate" },
        { name := "description", dtype := some "str", aggregation := some "first" } ],
    index_columns := ["record_id", "path"] }

/-- Two backend rows of the same record `r1` (one per file). -/
def dbW : List Doc :=
  [ [ ("record_id", Value.str "r1"), ("path", Value.str "/p/a"),
      ("contents", Value.str "c1"), ("description", Value.str "d"),
      ("_uuid", Value.str "u1") ],
    [ ("record_id", Value.str "r1"), ("path", Value.str "/p/b"),
      ("contents", Value.str "c2"), ("description", Value.str "d"),
      ("_uuid", Value.str "u2") ] ]

/-- A stored config for the config-update witnesses. -/
def storedW : Config :=
  { columns :=
      [ { name := "record_id", dtype := some "str", aggregation := some "first" } ],
    index_columns := ["record_id"] }

/-- A patch that renames the only column (drops `record_id`). -/
def patchRemW : ConfigPatch :=
  { columns := some
      [ { nameKey := some "other", dtypeKey := some "str",
          aggregationKey := some "first" } ] }

/-- A patch that keeps `record_id` and appends a new column. -/
def patchAddW : ConfigPatch :=
  { columns := some
      [ { nameKey := some "record_id", dtypeKey := some "str",
          aggregationKey := some "first" },
        { nameKey := some "extra", dtypeKey := some "str",
          aggregationKey := some "first" } ] }

/-- Rows for the listing witness: three databases. -/
def listW : List Doc :=
  [ [("database_id", Value.str "a"), ("name", Value.str "A")],
    [("database_id", Value.str "b"), ("name", Value.str "B")],
    [("database_id", Value.str "c"), ("name", Value.str "C")] ]

/-- The listing witness's permission oracle: databases `a` and `c` are
readable. -/
def permW (v : Option Value) : Bool :=
  v == some (Value.str "a") || v == some (Value.str "c")

/-- The regex clause that `parse("boolean:true")` actually renders. -/
def c5expected : String :=
  quoteS "boolean" ++ " == regex(" ++ quoteS "true" ++ ")"

/-- The clause an empty-key token actually renders: an empty quoted key. -/
def c6emptyKeyClause : String :=
  quoteS "" ++ " == regex(" ++ quoteS "abc" ++ ")"

/-! ## Helper lemmas -/

/-- Keeping a character class twice is the same as keeping it once. -/
theorem reSubKeep_idem (keep : Char → Bool) (s : String) :
    reSubKeep keep (reSubKeep keep s) = reSubKeep keep s := by
  simp [reSubKeep, List.filter_filter]

/-- The embedded `a-zA-Z0-9` range coincides with the spec wording
"alphanumeric". -/
theorem alnumAscii_eq_isAlpha_or_isDigit (c : Char) :
    alnumAscii c = (c.isAlpha || c.isDigit) := by
  simp [alnumAscii, Char.isAlpha, Bool.or_comm, Bool.or_left_comm, Bool.or_assoc]

/-- A key looked up successfully is one of the dict's keys. -/
theorem docGet?_some_mem {d : Doc} {k : String} {v : Value}
    (h : docGet? d k = some v) : k ∈ d.map Prod.fst := by
  unfold docGet? at h
  cases hf : d.find? (fun p => p.1 == k) with
  | none => rw [hf] at h; simp at h
  | some p =>
    have hp := List.find?_some hf
    have hmem : p ∈ d := List.mem_of_find?_eq_some hf
    have hk : p.1 = k := by simpa using hp
    subst hk
    exact List.mem_map.mpr ⟨p, hmem, rfl⟩

/-- A row returned by the record-group read carries the queried record id. -/
theorem recordRows_get (db : List Doc) (rid : String) {d : Doc}
    (hd : d ∈ recordRows db rid) : docGet? d "record_id" = some (Value.str rid) := by
  unfold recordRows at hd
  have := (List.mem_filter.mp hd).2
  exact of_decide_eq_true this

/-- Every failure of the per-key check is an `InvalidData`. -/
theorem checkRecordKey_error_shape (cfg : Config) (k : String) :
    (∃ m, checkRecordKey cfg k = Except.error (ApiError.invalidData m))
      ∨ checkRecordKey cfg k = Except.ok () := by
  by_cases h1 : k ∈ cfg.index_columns
  · exact Or.inl ⟨"Key \"" ++ k ++ "\" cannot be updated. Please replace this record.",
      by simp [checkRecordKey, h1]⟩
  · cases hf : cfg.columns.find? (fun c => c.name == k) with
    | none => exact Or.inr (by simp [checkRecordKey, h1, hf])
    | some col =>
      cases ha : col.aggregation with
      | none => exact Or.inr (by simp [checkRecordKey, h1, hf, ha])
      | some a =>
        by_cases hfa : a = "first"
        · exact Or.inr (by simp [checkRecordKey, h1, hf, ha, hfa])
        · exact Or.inl ⟨"Key \"" ++ k ++ "\" cannot be updated. Consider updating on file-level.",
            by simp [checkRecordKey, h1, hf, ha, hfa]⟩

/-- If some key of the changed set fails its check, the check loop raises
`InvalidData`. -/
theorem checkRecordKeys_error_of_mem (cfg : Config) {ks : List String} {k : String}
    (hk : k ∈ ks) (hbad : ∃ m, checkRecordKey cfg k = Except.error (ApiError.invalidData m)) :
    ∃ m, checkRecordKeys cfg ks = Except.error (ApiError.invalidData m) := by
  induction ks with
  | nil => cases hk
  | cons a as ih =>
    rcases checkRecordKey_error_shape cfg a with ⟨m, hm⟩ | hok
    · exact ⟨m, by simp [checkRecordKeys, hm]⟩
    · rcases List.mem_cons.mp hk with rfl | hmem
      · obtain ⟨m, hm⟩ := hbad
        rw [hok] at hm
        cases hm
      · obtain ⟨m, hm⟩ := ih hmem
        exact ⟨m, by simp [checkRecordKeys, hok, hm]⟩

/-- If every key of the changed set passes its check, the check loop
succeeds. -/
theorem checkRecordKeys_ok (cfg : Config) {ks : List String}
    (h : ∀ k ∈ ks, checkRecordKey cfg k = Except.ok ()) :
    checkRecordKeys cfg ks = Except.ok () := by
  induction ks with
  | nil => rfl
  | cons a as ih =>
    have ha := h a (List.mem_cons_self a as)
    simp [checkRecordKeys, ha]
    exact ih (fun k hk => h k (List.mem_cons_of_mem a hk))

/-- A record update whose changed-key check raises propagates the
`InvalidData` and leaves every row unchanged. -/
theorem updateRecord_invalidData (cfg : Config) (db : List Doc) (rid : String)
    (info : Doc) (hne : recordRows db rid ≠ [])
    (h : ∃ m, checkRecordKeys cfg (changedKeys (recordRows db rid) info)
        = Except.error (ApiError.invalidData m)) :
    isInvalidDataErr (_update_record cfg db rid info) = true
    ∧ resultStatus update_record_status (_update_record cfg db rid info) = some 400
    ∧ applyUpdateRecord cfg db rid info = db := by
  obtain ⟨m, hm⟩ := h
  have hemp : (recordRows db rid).isEmpty = false := by simpa using hne
  have hres : _update_record cfg db rid info = Except.error (ApiError.invalidData m) := by
    unfold _update_record
    simp [hemp, hm]
  refine ⟨?_, ?_, ?_⟩
  · simp [hres, isInvalidDataErr]
  · simp [hres, resultStatus, update_record_status]
  · simp [applyUpdateRecord, hres]

/-- A patch value differing from the stored `record_id` puts `record_id`
into the to-update set. -/
theorem recordId_mem_changedKeys {db : List Doc} {rid : String} {info : Doc}
    {v : Value} (hne : recordRows db rid ≠ [])
    (hv : docGet? info "record_id" = some v) (hvne : v ≠ Value.str rid) :
    "record_id" ∈ changedKeys (recordRows db rid) info := by
  unfold changedKeys
  refine List.mem_filter.mpr ⟨docGet?_some_mem hv, ?_⟩
  unfold keyChanged
  refine List.any_eq_true.mpr ?_
  obtain ⟨d0, hd0⟩ := List.exists_mem_of_ne_nil _ hne
  refine ⟨d0, hd0, ?_⟩
  rw [recordRows_get db rid hd0, hv]
  simp
  exact fun hh => hvne hh.symm

/-! ## Claim C1 -/

/-- C1: in `_update_record`, whenever a key of the computed
to-add/to-update set is one of the handler's `index_columns`, the operation
fails with `InvalidData` (mapped to 400 by the route) and the stored rows
are untouched; in particular patching `record_id` to a different value
always fails and never partially applies. -/
theorem c1_group_reconciler_rejects_index_columns :
    (∀ (cfg : Config) (db : List Doc) (rid : String) (info : Doc) (k : String),
        recordRows db rid ≠ [] →
        k ∈ changedKeys (recordRows db rid) info →
        k ∈ cfg.index_columns →
        isInvalidDataErr (_update_record cfg db rid info) = true
        ∧ resultStatus update_record_status (_update_record cfg db rid info) = some 400
        ∧ applyUpdateRecord cfg db rid info = db)
    ∧ (∀ (cfg : Config) (db : List Doc) (rid : String) (info : Doc) (v : Value),
        "record_id" ∈ cfg.index_columns →
        recordRows db rid ≠ [] →
        docGet? info "record_id" = some v →
        v ≠ Value.str rid →
        isInvalidDataErr (_update_record cfg db rid info) = true
        ∧ applyUpdateRecord cfg db rid info = db) := by
  have main : ∀ (cfg : Config) (db : List Doc) (rid : String) (info : Doc) (k : String),
      recordRows db rid ≠ [] →
      k ∈ changedKeys (recordRows db rid) info →
      k ∈ cfg.index_columns →
      isInvalidDataErr (_update_record cfg db rid info) = true
      ∧ resultStatus update_record_status (_update_record cfg db rid info) = some 400
      ∧ applyUpdateRecord cfg db rid info = db := by
    intro cfg db rid info k hne hmem hidx
    refine updateRecord_invalidData cfg db rid info hne ?_
    refine checkRecordKeys_error_of_mem cfg hmem ?_
    exact ⟨"Key \"" ++ k ++ "\" cannot be updated. Please replace this record.",
      by simp [checkRecordKey, hidx]⟩
  refine ⟨main, ?_⟩
  intro cfg db rid info v hid hne hv hvne
  have h := main cfg db rid info "record_id" hne (recordId_mem_changedKeys hne hv hvne) hid
  exact ⟨h.1, h.2.2⟩

/-- Witness for C1: on the two-row group of record `r1`, patching
`record_id` to `r2` raises `InvalidData`, is mapped to 400 and leaves the
rows as they were. -/
theorem c1_witness :
    isInvalidDataErr (_update_record cfgW dbW "r1" [("record_id", Value.str "r2")]) = true
    ∧ resultStatus update_record_status
        (_update_record cfgW dbW "r1" [("record_id", Value.str "r2")]) = some 400
    ∧ applyUpdateRecord cfgW dbW "r1" [("record_id", Value.str "r2")] = dbW :=
  c1_group_reconciler_rejects_index_columns.1 cfgW dbW "r1"
    [("record_id", Value.str "r2")] "record_id" (by decide) (by decide) (by decide)

/-! ## Claim C2 -/

/-- C2: a changed key that is a known schema column with an aggregation
policy other than `'first'` is rejected with `InvalidData`/400 at record
level; changed keys outside the schema (and outside the index columns)
update freely at record level; and at file level only `index_columns`
membership is checked, so the same non-`'first'` field passes there. -/
theorem c2_aggregation_rule_record_vs_file :
    (∀ (cfg : Config) (db : List Doc) (rid : String) (info : Doc) (k : String)
        (col : Column) (a : String),
        recordRows db rid ≠ [] →
        k ∈ changedKeys (recordRows db rid) info →
        cfg.columns.find? (fun c => c.name == k) = some col →
        col.aggregation = some a →
        a ≠ "first" →
        isInvalidDataErr (_update_record cfg db rid info) = true
        ∧ resultStatus update_record_status (_update_record cfg db rid info) = some 400)
    ∧ (∀ (cfg : Config) (db : List Doc) (rid : String) (info : Doc),
        recordRows db rid ≠ [] →
        (∀ k ∈ changedKeys (recordRows db rid) info,
            k ∉ cfg.index_columns ∧ k ∉ cfg.columns.map (fun c => c.name)) →
        _update_record cfg db rid info
          = Except.ok (overwriteGroup (inRecordGroup rid) db info))
    ∧ (∀ (cfg : Config) (db : List Doc) (uuid : String) (info : Doc),
        fileRows db uuid ≠ [] →
        ¬ 1 < (fileRows db uuid).length →
        (∀ k ∈ fileChangedKeys (fileRows db uuid) info, k ∉ cfg.index_columns) →
        _update_file cfg db uuid info
          = Except.ok (overwriteGroup (inFileGroup uuid) db info)) := by
  refine ⟨?_, ?_, ?_⟩
  · intro cfg db rid info k col a hne hmem hf ha hfa
    have hbad : ∃ m, checkRecordKey cfg k = Except.error (ApiError.invalidData m) := by
      by_cases hidx : k ∈ cfg.index_columns
      · exact ⟨"Key \"" ++ k ++ "\" cannot be updated. Please replace this record.",
          by simp [checkRecordKey, hidx]⟩
      · exact ⟨"Key \"" ++ k ++ "\" cannot be updated. Consider updating on file-level.",
          by simp [checkRecordKey, hidx, hf, ha, hfa]⟩
    have h := updateRecord_invalidData cfg db rid info hne
      (checkRecordKeys_error_of_mem cfg hmem hbad)
    exact ⟨h.1, h.2.1⟩
  · intro cfg db rid info hne hfree
    have hemp : (recordRows db rid).isEmpty = false := by simpa using hne
    have hok : checkRecordKeys cfg (changedKeys (recordRows db rid) info)
        = Except.ok () := by
      refine checkRecordKeys_ok cfg ?_
      intro k hk
      obtain ⟨hidx, hcol⟩ := hfree k hk
      have hfind : cfg.columns.find? (fun c => c.name == k) = none := by
        refine List.find?_eq_none.mpr ?_
        intro c hc hbeq
        exact hcol (List.mem_map.mpr ⟨c, hc, by simpa using hbeq⟩)
      simp [checkRecordKey, hidx, hfind]
    unfold _update_record
    simp [hemp, hok]
  · intro cfg db uuid info hne hlen hfree
    have hemp : (fileRows db uuid).isEmpty = false := by simpa using hne
    have hfind : (fileChangedKeys (fileRows db uuid) info).find?
        (fun k => decide (k ∈ cfg.index_columns)) = none := by
      refine List.find?_eq_none.mpr ?_
      intro k hk hcont
      exact hfree k hk (of_decide_eq_true (by simpa using hcont))
    unfold _update_file
    simp [hemp, hlen, hfind]

/-- Witness for C2: on the same schema, patching `contents` (aggregation
`concatenate`) on record `r1` fails 400; patching the unknown key `note`
succeeds at record level; patching `contents` on the single file `u1`
succeeds. -/
theorem c2_witness :
    (isInvalidDataErr (_update_record cfgW dbW "r1" [("contents", Value.str "c3")]) = true
     ∧ resultStatus update_record_status
        (_update_record cfgW dbW "r1" [("contents", Value.str "c3")]) = some 400)
    ∧ _update_record cfgW dbW "r1" [("note", Value.str "x")]
        = Except.ok (overwriteGroup (inRecordGroup "r1") dbW [("note", Value.str "x")])
    ∧ _update_file cfgW dbW "u1" [("contents", Value.str "c3")]
        = Except.ok (overwriteGroup (inFileGroup "u1") dbW [("contents", Value.str "c3")]) :=
  ⟨c2_aggregation_rule_record_vs_file.1 cfgW dbW "r1" [("contents", Value.str "c3")]
      "contents" { name := "contents", dtype := some "dict", aggregation := some "concatenate" }
      "concatenate" (by decide) (by decide) (by decide) (by decide) (by decide),
   c2_aggregation_rule_record_vs_file.2.1 cfgW dbW "r1" [("note", Value.str "x")]
      (by decide) (by decide),
   c2_aggregation_rule_record_vs_file.2.2 cfgW dbW "u1" [("contents", Value.str "c3")]
      (by decide) (by decide) (by decide)⟩

/-! ## Claim C3 -/

/-- Proposed columns carrying all three mandatory keys pass the per-column
asserts. -/
theorem checkColumnEntries_ok {cs : List PatchColumn}
    (h : ∀ c ∈ cs, c.nameKey.isSome ∧ c.dtypeKey.isSome ∧ c.aggregationKey.isSome) :
    checkColumnEntries cs = Except.ok () := by
  induction cs with
  | nil => rfl
  | cons c cs ih =>
    obtain ⟨h1, h2, h3⟩ := h c (List.mem_cons_self c cs)
    have e1 : c.nameKey.isNone = false := by
      cases hc : c.nameKey <;> simp_all
    have e2 : c.dtypeKey.isNone = false := by
      cases hc : c.dtypeKey <;> simp_all
    have e3 : c.aggregationKey.isNone = false := by
      cases hc : c.aggregationKey <;> simp_all
    simp [checkColumnEntries, e1, e2, e3]
    exact ih (fun d hd => h d (List.mem_cons_of_mem c hd))

/-- C3: for a config patch carrying `columns`, a stored column name missing
from the proposed names (a removal or a rename) makes the update fail with
the 400-mapped assertion before any mutation is applied, while a proposal
that keeps every stored name (appending is allowed), has the three
mandatory keys on every column, and does not empty `index_columns`,
succeeds and replaces the stored lists wholesale. -/
theorem c3_config_columns_append_only :
    (∀ (stored : Config) (patch : ConfigPatch) (newCols : List PatchColumn) (n : String),
        patch.columns = some newCols →
        (∀ c ∈ newCols, c.nameKey.isSome) →
        n ∈ stored.columns.map (fun c => c.name) →
        n ∉ newCols.filterMap (fun c => c.nameKey) →
        isAssertionErr (_update_config true stored patch) = true
        ∧ configResultStatus (_update_config true stored patch) = some 400
        ∧ applyUpdateConfig true stored patch = stored)
    ∧ (∀ (stored : Config) (patch : ConfigPatch) (newCols : List PatchColumn),
        patch.columns = some newCols →
        (∀ c ∈ newCols, c.nameKey.isSome ∧ c.dtypeKey.isSome ∧ c.aggregationKey.isSome) →
        (∀ n ∈ stored.columns.map (fun c => c.name),
            n ∈ newCols.filterMap (fun c => c.nameKey)) →
        (∀ idx, patch.index_columns = some idx → idx ≠ []) →
        _update_config true stored patch = Except.ok (mergeConfig stored patch)) := by
  constructor
  · intro stored patch newCols n hcols hnames hmem hnot
    have hany : (newCols.any (fun c => c.nameKey.isNone)) = false := by
      simp only [List.any_eq_false]
      intro c hc
      have := hnames c hc
      cases hk : c.nameKey <;> simp_all
    have hprop : ¬ (∀ a ∈ stored.columns, ∃ b ∈ newCols, b.nameKey = some a.name) := by
      intro hforall
      obtain ⟨c0, hc0, rfl⟩ := List.mem_map.mp hmem
      obtain ⟨b, hb, hbn⟩ := hforall c0 hc0
      exact hnot (List.mem_filterMap.mpr ⟨b, hb, hbn⟩)
    have hres : _update_config true stored patch
        = Except.error (ApiError.assertionError
            "You can neither remove columns nor change the names") := by
      unfold _update_config
      simp [hcols, hany, hprop]
    refine ⟨?_, ?_, ?_⟩
    · simp [hres, isAssertionErr]
    · simp [hres, configResultStatus, update_config_status]
    · simp [applyUpdateConfig, hres]
  · intro stored patch newCols hcols hkeys hsub hidx
    have hany : (newCols.any (fun c => c.nameKey.isNone)) = false := by
      simp only [List.any_eq_false]
      intro c hc
      have := (hkeys c hc).1
      cases hk : c.nameKey <;> simp_all
    have hprop : ∀ a ∈ stored.columns, ∃ b ∈ newCols, b.nameKey = some a.name := by
      intro a ha
      have := hsub a.name (List.mem_map.mpr ⟨a, ha, rfl⟩)
      obtain ⟨b, hb, hbn⟩ := List.mem_filterMap.mp this
      exact ⟨b, hb, hbn⟩
    have hentries := checkColumnEntries_ok hkeys
    unfold _update_config
    cases hix : patch.index_columns with
    | none =>
      simp [hcols, hany, hentries, hix]
      rw [if_pos hprop]
    | some idx =>
      have hnil : idx ≠ [] := hidx idx hix
      have hne : idx.isEmpty = false := by simpa using hnil
      simp [hcols, hany, hentries, hix, hne, hnil]
      rw [if_pos hprop]

/-- Witness for C3: renaming the only stored column `record_id` to `other`
fails the 400 assert and changes nothing, while appending a new column
`extra` succeeds and stores the merged config. -/
theorem c3_witness :
    (isAssertionErr (_update_config true storedW patchRemW) = true
     ∧ configResultStatus (_update_config true storedW patchRemW) = some 400
     ∧ applyUpdateConfig true storedW patchRemW = storedW)
    ∧ _update_config true storedW patchAddW = Except.ok (mergeConfig storedW patchAddW) :=
  ⟨c3_config_columns_append_only.1 storedW patchRemW
      [ { nameKey := some "other", dtypeKey := some "str",
          aggregationKey := some "first" } ] "record_id"
      (by decide) (by decide) (by decide) (by decide),
   c3_config_columns_append_only.2 storedW patchAddW
      [ { nameKey := some "record_id", dtypeKey := some "str",
          aggregationKey := some "first" },
        { nameKey := some "extra", dtypeKey := some "str",
          aggregationKey := some "first" } ]
      (by decide) (by decide) (by decide) (by decide)⟩

/-! ## Claim C4 -/

/-- A Python slice with non-negative start and length is drop-then-take. -/
theorem pySlice_nonneg {α : Type} (l : List α) (start k : Int)
    (hs : 0 ≤ start) (hk : 0 ≤ k) :
    pySlice l start (start + k) = (l.drop start.toNat).take k.toNat := by
  have h1 : ¬ start < 0 := not_lt.mpr hs
  have h2 : ¬ start + k < 0 := by omega
  unfold pySlice
  simp only [if_neg h1, if_neg h2]
  by_cases hsn : start ≤ (l.length : Int)
  · rw [min_eq_left hsn]
    by_cases hkn : start + k ≤ (l.length : Int)
    · rw [min_eq_left hkn]
      congr 1
      omega
    · rw [min_eq_right (by omega : (l.length : Int) ≤ start + k)]
      have hlen : (l.drop start.toNat).length = l.length - start.toNat :=
        List.length_drop start.toNat l
      rw [List.take_of_length_le (by omega), List.take_of_length_le (by omega)]
  · have hn : (l.length : Int) ≤ start := le_of_not_le hsn
    rw [min_eq_right hn, min_eq_right (by omega : (l.length : Int) ≤ start + k)]
    have hd1 : l.drop (l.length : Int).toNat = [] :=
      List.drop_eq_nil_of_le (by omega)
    have hd2 : l.drop start.toNat = [] :=
      List.drop_eq_nil_of_le (by omega)
    rw [hd1, hd2]
    simp

/-- C4: in the permission-gated database listing with `per_page > 0` and
`page ≥ 1`, the whole matching result set is filtered by the permission
oracle first and paginated afterwards: `total` is the post-filter count,
`number_of_pages = ceil(total / per_page)`, `length` is the size of the
returned slice, and `data` is the slice of the filtered list starting at
offset `per_page * (page - 1)` with at most `per_page` elements. -/
theorem c4_list_databases_filters_before_paging (all_data : List Doc)
    (p : Option Value → Bool) (sk : String) (per_page page : Int)
    (hpp : 0 < per_page) (hpg : 1 ≤ page) :
    (_list_databases all_data p sk per_page page).total
        = (permittedObjects p all_data).length
    ∧ (_list_databases all_data p sk per_page page).number_of_pages
        = ⌈(((permittedObjects p all_data).length : ℚ) / (per_page : ℚ))⌉
    ∧ (_list_databases all_data p sk per_page page).length
        = (_list_databases all_data p sk per_page page).data.length
    ∧ (_list_databases all_data p sk per_page page).data
        = ((permittedObjects p all_data).drop (per_page * (page - 1)).toNat).take
            per_page.toNat
    ∧ ((_list_databases all_data p sk per_page page).data.length : Int) ≤ per_page := by
  have hbgn : 0 ≤ per_page * (page - 1) :=
    mul_nonneg (le_of_lt hpp) (by omega)
  have hslice : pySlice (permittedObjects p all_data) (per_page * (page - 1))
      (per_page * (page - 1) + per_page)
      = ((permittedObjects p all_data).drop (per_page * (page - 1)).toNat).take
          per_page.toNat :=
    pySlice_nonneg (permittedObjects p all_data) (per_page * (page - 1)) per_page
      hbgn (le_of_lt hpp)
  refine ⟨rfl, rfl, rfl, ?_, ?_⟩
  · show pySlice (permittedObjects p all_data) (per_page * (page - 1))
        (per_page * (page - 1) + per_page) = _
    exact hslice
  · show ((pySlice (permittedObjects p all_data) (per_page * (page - 1))
        (per_page * (page - 1) + per_page)).length : Int) ≤ per_page
    rw [hslice]
    have := List.length_take_le per_page.toNat
      ((permittedObjects p all_data).drop (per_page * (page - 1)).toNat)
    omega

/-- Witness for C4: three databases, two readable, one per page, second
page. -/
theorem c4_witness :
    (_list_databases listW permW "database_id" 1 2).total
        = (permittedObjects permW listW).length
    ∧ (_list_databases listW permW "database_id" 1 2).number_of_pages
        = ⌈(((permittedObjects permW listW).length : ℚ) / ((1 : Int) : ℚ))⌉
    ∧ (_list_databases listW permW "database_id" 1 2).length
        = (_list_databases listW permW "database_id" 1 2).data.length
    ∧ (_list_databases listW permW "database_id" 1 2).data
        = ((permittedObjects permW listW).drop ((1 : Int) * ((2 : Int) - 1)).toNat).take
            (1 : Int).toNat
    ∧ ((_list_databases listW permW "database_id" 1 2).data.length : Int) ≤ (1 : Int) :=
  c4_list_databases_filters_before_paging listW permW "database_id" 1 2
    (by decide) (by decide)

/-! ## Claim C5 -/

/-- Counterexample for C5: `parse("boolean:true")` renders the regex clause
and not an equality clause against the literal `True`. -/
theorem c5_counterexample :
    parse_search_keyword (some "boolean:true") none = some c5expected
    ∧ c5expected ≠ quoteS "boolean" ++ " == True" := by
  exact ⟨by decide, by decide⟩

/-- C5 amended: `parse("boolean:true")` renders the fuzzy clause
`'boolean' == regex('true')` — the value keeps its lowercase spelling and
is quoted; there is no boolean-literal special case in the parser. -/
theorem c5_amended :
    parse_search_keyword (some "boolean:true") none = some c5expected := by
  decide

/-! ## Claim C6 -/

/-- Counterexample for C6: the token `:abc` splits to an empty key, yet the
rendered clause is `'' == regex('abc')`, not the empty no-op string. -/
theorem c6_counterexample :
    parse_search_keyword (some ":abc") none = some c6emptyKeyClause
    ∧ c6emptyKeyClause ≠ "" := by
  exact ⟨by decide, by decide⟩

/-- C6 amended: a token whose value part is empty after the split (and
backslash removal) contributes the empty no-op clause, but an empty key
part does not: the key is quoted before the emptiness test, so the test
never fires for keys and the token renders a clause with an empty quoted
key. -/
theorem c6_amended :
    (∀ (kw expr : String) (r : Option String),
        searchValue kw expr = "" → _parse_search_keyword kw expr r = "")
    ∧ _parse_search_keyword ":abc" ":" (some "regex") = c6emptyKeyClause := by
  constructor
  · intro kw expr r h
    simp [_parse_search_keyword, h]
  · decide

/-- Witness for C6: the trailing-operator token `abc:` has an empty value
and renders the empty clause. -/
theorem c6_witness : _parse_search_keyword "abc:" ":" (some "regex") = "" :=
  c6_amended.1 "abc:" ":" (some "regex") (by decide)

/-! ## Claim C7 -/

/-- Counterexample for C7: on a bare `SyntaxError`, `list_records` does not
return any HTTP response (the exception escapes the route), and
`list_databases` returns a `None` body, which is neither an empty list
response nor a 400 — the two routes do not behave uniformly and the records
route does crash. -/
theorem c7_counterexample :
    list_records_on_exc RaisedExc.synError = RouteResult.unhandled RaisedExc.synError
    ∧ list_databases_on_exc RaisedExc.synError = RouteResult.noneBody
    ∧ RouteResult.noneBody ≠ RouteResult.http 400
    ∧ RouteResult.unhandled RaisedExc.synError ≠ RouteResult.http 400
    ∧ RouteResult.unhandled RaisedExc.synError ≠ RouteResult.okJson := by
  exact ⟨rfl, rfl, by decide, by decide, by decide⟩

/-- C7 amended: a bare `SyntaxError` is swallowed by `list_databases`
(whose `except SyntaxError: pass` makes the route return a null body) and
is not handled at all by `list_records`, where it propagates out of the
route handler. -/
theorem c7_amended :
    list_databases_on_exc RaisedExc.synError = RouteResult.noneBody
    ∧ list_records_on_exc RaisedExc.synError = RouteResult.unhandled RaisedExc.synError :=
  ⟨rfl, rfl⟩

/-! ## Claim C8 -/

/-- Counterexample for C8: the claimed allow-list for kind `filtering`
contains the apostrophe, but the sanitizer deletes it. -/
theorem c8_counterexample :
    escape_string (some sqStr) (some "filtering") = some ""
    ∧ some "" ≠ some sqStr := by
  exact ⟨by decide, by decide⟩

/-- C8 amended: for kind `id` the sanitizer deletes exactly the characters
outside alphanumerics, `_` and `-` on every non-null input (so
`sanitize("abc-def1234;[+\"") = "abc-def1234"`); null passes through;
`filtering` and the default kind share one allow-list — alphanumerics plus
`: ; . , _ = < > " space / ~ ! @ # $ % ^ & ( ) + -` (no apostrophe) —
while `path` drops the double quote and the space from that set. -/
theorem c8_amended :
    (∀ s : String, escape_string (some s) (some "id")
        = some (String.mk (s.data.filter (specAllowed specIdChars))))
    ∧ escape_string (some "abc-def1234;[+\"") (some "id") = some "abc-def1234"
    ∧ (∀ k : Option String, escape_string none k = none)
    ∧ (∀ s : String, escape_string (some s) (some "filtering") = escape_string (some s) none)
    ∧ (∀ s : String, escape_string (some s) none
        = some (String.mk (s.data.filter (specAllowed specFilterChars))))
    ∧ (∀ s : String, escape_string (some s) (some "path")
        = some (String.mk (s.data.filter (specAllowed specPathChars)))) := by
  have hid : ∀ c, matchesClass idClassChars c = specAllowed specIdChars c := by
    intro c
    simp [matchesClass, specAllowed, alnumAscii_eq_isAlpha_or_isDigit,
      idClassChars, specIdChars, Bool.or_assoc]
  have hdef : ∀ c, matchesClass defaultClassChars c = specAllowed specFilterChars c := by
    intro c
    simp [matchesClass, specAllowed, alnumAscii_eq_isAlpha_or_isDigit,
      defaultClassChars, specFilterChars, Bool.or_assoc]
  have hpath : ∀ c, matchesClass pathClassChars c = specAllowed specPathChars c := by
    intro c
    simp [matchesClass, specAllowed, alnumAscii_eq_isAlpha_or_isDigit,
      pathClassChars, specPathChars, Bool.or_assoc]
  refine ⟨fun s => ?_, by decide, fun k => rfl, fun s => rfl, fun s => ?_, fun s => ?_⟩
  · have hfl : s.data.filter (matchesClass idClassChars)
        = s.data.filter (specAllowed specIdChars) :=
      List.filter_congr (fun c _ => hid c)
    simp [escape_string, reSubKeep, hfl]
  · have hfl : s.data.filter (matchesClass defaultClassChars)
        = s.data.filter (specAllowed specFilterChars) :=
      List.filter_congr (fun c _ => hdef c)
    simp [escape_string, reSubKeep, hfl]
  · have hfl : s.data.filter (matchesClass pathClassChars)
        = s.data.filter (specAllowed specPathChars) :=
      List.filter_congr (fun c _ => hpath c)
    simp [escape_string, reSubKeep, hfl]

/-! ## Claim C9 -/

/-- C9: the sanitizer is idempotent for every input and every kind
(including `None` data, unknown kinds, and the pass-through branch). -/
theorem c9_escape_string_idempotent (x k : Option String) :
    escape_string (escape_string x k) k = escape_string x k := by
  cases x with
  | none => rfl
  | some s =>
    simp only [escape_string]
    split_ifs <;> simp [reSubKeep_idem]

/-! ## Claim C10 -/

/-- C10: the value part of an operator clause is backslash-free — the
parser strips every backslash from the value before rendering, both bare
and once quoted. -/
theorem c10_value_part_backslash_free (kw expr : String) :
    (searchValue kw expr).data.contains '\\' = false
    ∧ (quoteS (searchValue kw expr)).data.contains '\\' = false := by
  have hmem : '\\' ∉ (searchValue kw expr).data := by
    show '\\' ∉ (String.join ((pySplit kw expr).drop 1)).data.filter (fun c => c != '\\')
    intro h
    have := (List.mem_filter.mp h).2
    simp at this
  have hsq : '\\' ∉ sqStr.data := by decide
  have hq : '\\' ∉ (quoteS (searchValue kw expr)).data := by
    simp only [quoteS, String.data_append, List.mem_append]
    rintro ((h | h) | h)
    · exact hsq h
    · exact hmem h
    · exact hsq h
  constructor
  · simpa using hmem
  · simpa using hq
